import Mathlib

/-!
Shallow embedding of the BackupPurge repository (purgeScript.js and
file-management-utils.js with its S3 and GCS connectors), together with
theorems settling the specification claims about it.

Conventions of the embedding:
* JavaScript numbers holding date fields are modelled as `Int`; the value
  `NaN` is modelled by `Option.none` of `Option Int`.
* A `Date` value is modelled by its day number (days since 1970-01-01),
  since every date built by the code has zero time-of-day fields.
* Promises are modelled by `Except` for code that always settles, and by
  `Option (Except _ _)` where a code path can leave the promise unsettled.
* Strings in the repository are ASCII, so `String.length` agrees with the
  JavaScript UTF-16 `length` on every input the theorems touch.
-/

namespace BackupPurge

/-! ## JavaScript string and number primitives -/

/-- Value of a decimal digit character. -/
def digitVal (c : Char) : Nat := c.toNat - 48

/-- Value of a list of decimal digit characters, most significant first. -/
def decDigitsVal (cs : List Char) : Nat :=
  cs.foldl (fun acc c => acc * 10 + digitVal c) 0

/-- Model of JavaScript `s.slice(a, b)` on strings, for `0 ≤ a ≤ b`. -/
def jsSlice (s : String) (a b : Nat) : String :=
  ((s.toList.drop a).take (b - a)).asString

/-- Whitespace test used by the numeric coercions (the inputs this file
evaluates contain at most plain spaces). -/
def jsSpace (c : Char) : Bool := c = ' '

/-- Leading-whitespace removal. -/
def jsTrimLeft (cs : List Char) : List Char := cs.dropWhile jsSpace

/-- Whitespace removal at both ends. -/
def jsTrim (cs : List Char) : List Char :=
  ((jsTrimLeft cs).reverse.dropWhile jsSpace).reverse

/-- Optional sign extraction: returns whether a minus sign was read and
the remaining characters. -/
def jsSignSplit (cs : List Char) : Bool × List Char :=
  if cs.head? = some '-' ∨ cs.head? = some '+' then (cs.head? = some '-', cs.tail)
  else (false, cs)

/-- Model of JavaScript `parseInt(s)`: skip leading whitespace, read an
optional sign and then a longest prefix of decimal digits; `NaN` (here
`none`) when no digit is found. -/
def jsParseIntPrefix (s : String) : Option Int :=
  let sp := jsSignSplit (jsTrimLeft s.toList)
  let ds := sp.2.takeWhile Char.isDigit
  if ds.isEmpty then none
  else if sp.1 then some (-(decDigitsVal ds : Int))
  else some (decDigitsVal ds : Int)

/-- Model of the JavaScript `ToNumber` coercion applied to a string by the
`Date` constructor, followed by the truncation toward zero performed by
`MakeDay`. Whitespace-only strings coerce to `0`; otherwise an optional
sign followed by a decimal literal; anything else is `NaN` (`none`).
The fields this file evaluates are short integer-shaped slices, well within
this fragment of the full `ToNumber` grammar. -/
def jsToNumber (s : String) : Option Int :=
  let t := jsTrim s.toList
  if t.isEmpty then some 0
  else
    let sp := jsSignSplit t
    let ip := sp.2.takeWhile Char.isDigit
    let rest := sp.2.drop ip.length
    let mag : Option Int :=
      if rest.isEmpty then (if ip.isEmpty then none else some (decDigitsVal ip : Int))
      else if rest.head? = some '.' ∧ rest.tail.all Char.isDigit
          ∧ ¬(ip.isEmpty ∧ rest.tail.isEmpty) then
        some (decDigitsVal ip : Int)
      else none
    mag.map (fun v => if sp.1 then -v else v)

/-! ## Proleptic Gregorian day arithmetic (ECMAScript `MakeDay`) -/

/-- Day number (days since 1970-01-01) of the civil date `y-m-d`, for a
normalized month `m ∈ [1, 12]`; the day `d` may be any integer and rolls
over linearly, exactly as in ECMAScript `MakeDay`. -/
def daysFromCivil (y m d : Int) : Int :=
  let y2 := if m ≤ 2 then y - 1 else y
  let era := Int.fdiv y2 400
  let yoe := y2 - era * 400
  let mp := Int.emod (m + 9) 12
  let doy := Int.fdiv (153 * mp + 2) 5 + d - 1
  let doe := yoe * 365 + Int.fdiv yoe 4 - Int.fdiv yoe 100 + doy
  era * 146097 + doe - 719468

/-- ECMAScript `MakeDay(y, m, d)` with a 0-based month that may lie outside
`[0, 11]`: the month rolls over into the year, the day rolls over into the
month. -/
def jsMakeDay (y m d : Int) : Int :=
  daysFromCivil (y + Int.fdiv m 12) (Int.emod m 12 + 1) 1 + (d - 1)

/-- Day number produced by `new Date(y, m, d)`: the constructor first maps a
year in `[0, 99]` to `1900 + year`, then applies `MakeDay`. -/
def jsDateDay (y m d : Int) : Int :=
  jsMakeDay (if 0 ≤ y ∧ y ≤ 99 then y + 1900 else y) m d

/-- Anchor: the model places the Unix epoch at day 0. -/
theorem daysFromCivil_epoch : daysFromCivil 1970 1 1 = 0 := by decide

/-- Anchor: 2022-03-24 is 19075 days after the epoch. -/
theorem daysFromCivil_example : daysFromCivil 2022 3 24 = 19075 := by decide

/-! ## `s3Utils.calculateDate` (amazon-s3-utils) -/

/-- Failure modes of `calculateDate`: the explicit rejection for a name of
unexpected length, and the `Invalid date` error thrown when a date field
does not coerce to a number. -/
inductive DateParseError where
  | badLength (backupName : String)
  | invalidDate
deriving DecidableEq, Repr

/-- Model of `s3Utils.calculateDate`. Length 14 reads `[0:2]` as 1-based
month via `parseInt`, `[2:4]` as day and `[4:8]` as year (both coerced by
the `Date` constructor); length 35 reads `[0:4]` as year, `[4:6]` as
1-based month via `parseInt`, `[6:8]` as day; any other length rejects with
the explicit length message. A `NaN` field makes `new Date` invalid, which
the `isNaN` guard turns into a rejection; numeric fields always produce a
valid (possibly rolled-over) date. -/
def s3CalculateDate (backupName : String) : Except DateParseError Int :=
  if backupName.length = 14 then
    let month := jsParseIntPrefix (jsSlice backupName 0 2)
    let day := jsToNumber (jsSlice backupName 2 4)
    let year := jsToNumber (jsSlice backupName 4 8)
    match month, day, year with
    | some m, some d, some y => Except.ok (jsDateDay y (m - 1) d)
    | _, _, _ => Except.error DateParseError.invalidDate
  else if backupName.length = 35 then
    let year := jsToNumber (jsSlice backupName 0 4)
    let month := jsParseIntPrefix (jsSlice backupName 4 6)
    let day := jsToNumber (jsSlice backupName 6 8)
    match month, day, year with
    | some m, some d, some y => Except.ok (jsDateDay y (m - 1) d)
    | _, _, _ => Except.error DateParseError.invalidDate
  else Except.error (DateParseError.badLength backupName)

/-! ## Connector dispatcher (file-management-utils.js) -/

/-- The two connectors the dispatcher can resolve. -/
inductive Connector where
  | gcs
  | s3
deriving DecidableEq, Repr

/-- Routing failure: every `default` branch of the nested switches rejects
with an error message naming both the provider and the product. -/
inductive DispatchError where
  | unsupported (provider product : String)
deriving DecidableEq, Repr

/-- Dispatch switch of `files.listFileVersions`. -/
def listFileVersionsDispatch (provider product : String) : Except DispatchError Connector :=
  if provider = "google" then
    if product = "storage" then Except.ok Connector.gcs
    else Except.error (DispatchError.unsupported provider product)
  else if provider = "amazon" then
    if product = "s3" then Except.ok Connector.s3
    else Except.error (DispatchError.unsupported provider product)
  else Except.error (DispatchError.unsupported provider product)

/-- Dispatch switch of `files.listBackups`. -/
def listBackupsDispatch (provider product : String) : Except DispatchError Connector :=
  if provider = "google" then
    if product = "storage" then Except.ok Connector.gcs
    else Except.error (DispatchError.unsupported provider product)
  else if provider = "amazon" then
    if product = "s3" then Except.ok Connector.s3
    else Except.error (DispatchError.unsupported provider product)
  else Except.error (DispatchError.unsupported provider product)

/-- Dispatch switch of `files.calculateDate`. -/
def calculateDateDispatch (provider product : String) : Except DispatchError Connector :=
  if provider = "google" then
    if product = "storage" then Except.ok Connector.gcs
    else Except.error (DispatchError.unsupported provider product)
  else if provider = "amazon" then
    if product = "s3" then Except.ok Connector.s3
    else Except.error (DispatchError.unsupported provider product)
  else Except.error (DispatchError.unsupported provider product)

/-- Dispatch switch of `files.deleteObjectVersion`. -/
def deleteObjectVersionDispatch (provider product : String) : Except DispatchError Connector :=
  if provider = "google" then
    if product = "storage" then Except.ok Connector.gcs
    else Except.error (DispatchError.unsupported provider product)
  else if provider = "amazon" then
    if product = "s3" then Except.ok Connector.s3
    else Except.error (DispatchError.unsupported provider product)
  else Except.error (DispatchError.unsupported provider product)

/-- Dispatch switch of `files.deleteAll`. -/
def deleteAllDispatch (provider product : String) : Except DispatchError Connector :=
  if provider = "google" then
    if product = "storage" then Except.ok Connector.gcs
    else Except.error (DispatchError.unsupported provider product)
  else if provider = "amazon" then
    if product = "s3" then Except.ok Connector.s3
    else Except.error (DispatchError.unsupported provider product)
  else Except.error (DispatchError.unsupported provider product)

/-- Dispatch switch of `files.transferBackupFiles`. -/
def transferBackupFilesDispatch (provider product : String) : Except DispatchError Connector :=
  if provider = "google" then
    if product = "storage" then Except.ok Connector.gcs
    else Except.error (DispatchError.unsupported provider product)
  else if provider = "amazon" then
    if product = "s3" then Except.ok Connector.s3
    else Except.error (DispatchError.unsupported provider product)
  else Except.error (DispatchError.unsupported provider product)

/-! ## Purge script (purgeScript.js) -/

/-- Retention quantity constant of purgeScript.js: all but the last
`quantity` backups are purged. -/
def quantity : Nat := 30

/-- ASCII case folding of one character, as `String.prototype.toLowerCase`
acts on the ASCII range. Only ASCII uppercase letters have a Unicode
simple lowercase mapping landing in the letters of `"false"`, so for the
comparison with `"false"` this agrees with the JavaScript call on every
string. -/
def jsCharLower (c : Char) : Char :=
  if 65 ≤ c.toNat ∧ c.toNat ≤ 90 then Char.ofNat (c.toNat + 32) else c

/-- Model of `s.toLowerCase()` restricted as described at `jsCharLower`. -/
def jsToLowerCase (s : String) : String :=
  (s.toList.map jsCharLower).asString

/-- Model of the `DRYRUN` parsing block: `process.env.DRYRUN || true`
followed by the string branch that lowercases and compares with
`"false"`. The environment variable is either unset (`none`) or a string;
an empty string is falsy, so `|| true` replaces it before the string
branch runs. The result is the final boolean value of `dryrun`. -/
def dryrunParse (env : Option String) : Bool :=
  match env with
  | none => true
  | some s =>
    if s = "" then true
    else if jsToLowerCase s = "false" then false
    else true

/-- One backup object built by the date-resolution step of purgeScript.js:
`{name, date, filesource}` with `date = undefined` (`none`) when
`calculateDate` rejected. Dates are `getTime()` values. -/
structure BackupObject where
  name : String
  date : Option Int
  filesource : String
deriving DecidableEq, Repr

/-- Model of the exclusion loop

`backupObjects.forEach(function (cur, i) { if (cur.date === undefined) { if (dryrun !== false) keep.push(cur); backupObjects.splice(i, 1); } })`.

`forEach` advances its index after `splice` shifts the array down, so the
element directly after a removed entry is never visited: it stays in the
array whether or not its date is defined. Returns the surviving array and
the `backupsToKeep` entries pushed (only in dry-run mode). -/
def excludeUndated (dryrun : Bool) : List BackupObject → List BackupObject × List BackupObject
  | [] => ([], [])
  | x :: rest =>
    if x.date = none then
      let keep := if dryrun then [x] else []
      match rest with
      | [] => ([], keep)
      | y :: rest2 =>
        let out := excludeUndated dryrun rest2
        (y :: out.1, keep ++ out.2)
    else
      let out := excludeUndated dryrun rest
      (x :: out.1, out.2)

/-- Comparator of the sort step: ascending by `date.getTime()`, with an
undefined or invalid date treated as `Infinity` (the `try`/`catch` around
`getTime`). -/
def dateLe (a b : BackupObject) : Bool :=
  match a.date, b.date with
  | some x, some y => x ≤ y
  | some _, none => true
  | none, some _ => false
  | none, none => true

/-- Model of JavaScript `arr.slice(0, -q)` for `q ≥ 0`. -/
def jsSliceDropLast (l : List BackupObject) (q : Nat) : List BackupObject :=
  if q = 0 then [] else l.take (l.length - q)

/-- Model of JavaScript `arr.slice(-q)` for `q ≥ 0`. -/
def jsSliceLast (l : List BackupObject) (q : Nat) : List BackupObject :=
  if q = 0 then l else l.drop (l.length - q)

/-- Result of planning one installation's purge. -/
structure PurgePlan where
  notEnough : Bool
  toDelete : List BackupObject
  rankedKeep : List BackupObject
  undatedKeep : List BackupObject
deriving DecidableEq, Repr

/-- Model of the per-installation purge pipeline of purgeScript.js:
exclusion loop, not-enough-backups early return, stable ascending sort by
date (undefined sorts as `Infinity`), then the split
`backupsToDelete = sorted.slice(0, -quantity)` and, in dry-run mode only,
`backupsToKeep = undated ++ sorted.slice(-quantity)`. -/
def purgePlan (dryrun : Bool) (q : Nat) (backups : List BackupObject) : PurgePlan :=
  let excluded := excludeUndated dryrun backups
  if excluded.1.length ≤ q then
    { notEnough := true, toDelete := [], rankedKeep := [], undatedKeep := excluded.2 }
  else
    let sorted := excluded.1.insertionSort (fun a b => dateLe a b = true)
    { notEnough := false
      toDelete := jsSliceDropLast sorted q
      rankedKeep := if dryrun then jsSliceLast sorted q else []
      undatedKeep := excluded.2 }

/-- One deletion task pushed to the 10-way purge queue. -/
structure PurgeTask where
  installation : String
  path : String
  filesource : String
deriving DecidableEq, Repr

/-- Model of the task-enqueueing tail of purgeScript.js: only when
`dryrun === false` is a `deleteAll` task built for each purge candidate and
pushed into the queue; otherwise the planned deletions and retentions are
only printed. -/
def purgeEnqueued (dryrun : Bool) (q : Nat) (inst : String)
    (backups : List BackupObject) : List PurgeTask :=
  if dryrun = false then
    (purgePlan dryrun q backups).toDelete.map
      (fun b => { installation := inst, path := "backups/" ++ b.name, filesource := b.filesource })
  else []

/-- Count of the backups in a list whose date resolved. -/
def countDated (l : List BackupObject) : Nat :=
  (l.filter (fun b => b.date ≠ none)).length

/-- Backups of the input list that the plan does not delete: the retained
set of a live purge run. -/
def retainedOf (backups : List BackupObject) (plan : PurgePlan) : List BackupObject :=
  backups.filter (fun b => b ∉ plan.toDelete)

/-! ## Bounded queue deletion batches (`deleteAll` of both connectors) -/

/-- One versioned object (or delete marker): the `{Key, VersionId}` pair a
deletion task carries. -/
structure S3Object where
  key : String
  versionId : String
deriving DecidableEq, Repr

/-- Queue run over the submitted items: task `i` succeeds when `ok i`;
returns `(itemsDeletedCount, failedItems)`. Each task settles exactly once
(either the increment or the `failedItems.push`), and a failing task never
stops the queue. -/
def runDeleteQueue : List S3Object → (Nat → Bool) → Nat → Nat × List S3Object
  | [], _, _ => (0, [])
  | x :: rest, ok, i =>
    let out := runDeleteQueue rest ok (i + 1)
    if ok i then (out.1 + 1, out.2) else (out.1, x :: out.2)

/-- Outcomes with which the `deleteAll` promise can settle in the model
(list calls and bucket deletion succeeding): the plain success resolution
of the drain callback, or the success resolution of the bucket-deletion
branch. The aggregate-error rejection path never settles, because building
its message evaluates `failedItems.substring(0, 10)` on an array, which
throws a `TypeError` inside the async drain callback. -/
inductive SettledOutcome where
  | success (deletedCount : Nat)
  | bucketSuccess (deletedCount : Nat)
deriving DecidableEq, Repr

/-- Observable trace of one `deleteAll` run. -/
structure DeleteAllTrace where
  tasks : List S3Object
  deletedCount : Nat
  failedItems : List S3Object
  relisted : Bool
  bucketDeleteCalls : Nat
  outcome : Option SettledOutcome
deriving DecidableEq, Repr

/-- Model of `s3Utils.deleteAll folder` once the listing returned
`versions` and `markers`: one task per version then per delete marker;
on drain, when `folder` is the bucket root the root is re-listed (the
re-list reporting `remaining` items) and, when it is empty and the
credentials carry no shared bucket, a single `DeleteBucketCommand` is
sent. The drain callback then resolves with the success count when no
task failed; otherwise its `TypeError` (see `SettledOutcome`) leaves only
the bucket-deletion branch able to settle the promise. -/
def s3DeleteAll (folder : String) (shared : Bool) (versions markers : List S3Object)
    (ok : Nat → Bool) (remaining : Nat) : DeleteAllTrace :=
  let items := versions ++ markers
  let run := runDeleteQueue items ok 0
  { tasks := items
    deletedCount := run.1
    failedItems := run.2
    relisted := folder = ""
    bucketDeleteCalls := if folder = "" ∧ remaining = 0 ∧ shared = false then 1 else 0
    outcome :=
      if run.2.isEmpty then some (SettledOutcome.success run.1)
      else if folder = "" ∧ remaining = 0 ∧ shared = false then
        some (SettledOutcome.bucketSuccess run.1)
      else none }

/-- Model of `gcsUtils.deleteAll`, the same drain shape with a single file
list and no shared-bucket guard on the bucket deletion. -/
def gcsDeleteAll (folder : String) (files : List S3Object)
    (ok : Nat → Bool) (remaining : Nat) : DeleteAllTrace :=
  let run := runDeleteQueue files ok 0
  { tasks := files
    deletedCount := run.1
    failedItems := run.2
    relisted := folder = ""
    bucketDeleteCalls := if folder = "" ∧ remaining = 0 then 1 else 0
    outcome :=
      if run.2.isEmpty then some (SettledOutcome.success run.1)
      else if folder = "" ∧ remaining = 0 then some (SettledOutcome.bucketSuccess run.1)
      else none }

/-! ## Paginated listing (`s3Utils.listFileVersions`) -/

/-- One response of `ListObjectVersionsCommand`. Absent `Versions` or
`DeleteMarkers` members are the empty list: the `hasOwnProperty` guards
only skip a concat, and the cursor line fails on an absent member exactly
as on an empty one. -/
structure S3Page where
  versions : List S3Object
  deleteMarkers : List S3Object
  isTruncated : Bool
deriving DecidableEq, Repr

/-- Failure modes of the listing loop: the `TypeError` thrown by
`response.Versions.slice(-1)[0].Key` on a truncated page without versions
(caught and turned into a rejection), and exhaustion of the modelled
response sequence while still truncated. -/
inductive ListVersionsError where
  | cursorCrash
  | noResponse
deriving DecidableEq, Repr

/-- Accumulated listing result together with the continuation cursors the
loop wrote into `bucketParams.KeyMarker` before each follow-up request. -/
structure ListVersionsResult where
  versions : List S3Object
  deleteMarkers : List S3Object
  cursors : List String
deriving DecidableEq, Repr

/-- The while loop of `s3Utils.listFileVersions`, consuming the provider's
responses in order: concatenate each page's versions and delete markers; a
truncated page carries the key of the last element of its `Versions` array
forward as `KeyMarker`; a non-truncated page ends the loop. -/
def s3ListLoop : List S3Page → List S3Object → List S3Object → List String →
    Except ListVersionsError ListVersionsResult
  | [], _, _, _ => Except.error ListVersionsError.noResponse
  | p :: rest, accV, accM, cursors =>
    let accV2 := accV ++ p.versions
    let accM2 := accM ++ p.deleteMarkers
    if p.isTruncated then
      match p.versions.getLast? with
      | none => Except.error ListVersionsError.cursorCrash
      | some v => s3ListLoop rest accV2 accM2 (cursors ++ [v.key])
    else Except.ok { versions := accV2, deleteMarkers := accM2, cursors := cursors }

/-- Entry point of the pagination model: empty accumulators, no cursor. -/
def s3ListFileVersions (pages : List S3Page) : Except ListVersionsError ListVersionsResult :=
  s3ListLoop pages [] [] []

/-- Cursor a truncated page makes the loop carry forward: the key of the
last element of its `Versions` array. -/
def lastVersionKey (p : S3Page) : String :=
  ((p.versions.getLast?).map S3Object.key).getD ""

/-! ## Transfer engines (`transferBackupFiles` of both connectors) -/

/-- One manifest entry recorded at backup time under S3 semantics. -/
structure S3ManifestEntry where
  key : String
  versionId : String
  isLatest : Bool
deriving DecidableEq, Repr

/-- The v1/v2 layout information of an S3 credential object: `version` is
absent or a number; `bucket` is the shared bucket of the v2 layout. -/
structure S3Credentials where
  version : Option Nat
  bucket : String
deriving DecidableEq, Repr

/-- Truthiness test `credentials.version && credentials.version >= 2`. -/
def s3IsV2 (c : S3Credentials) : Bool :=
  match c.version with
  | some v => 2 ≤ v
  | none => false

/-- One `CopyObjectCommand` parameter record. -/
structure S3CopyCommand where
  copySource : String
  bucket : String
  key : String
deriving DecidableEq, Repr

/-- Copy command built for one surviving manifest entry: v2 locators are
shared-bucket plus installation-prefixed key, v1 locators use the
installation id as the bucket. -/
def s3CopyCommandOf (srcId : String) (srcCreds : S3Credentials) (dstId : String)
    (dstCreds : S3Credentials) (o : S3ManifestEntry) : S3CopyCommand :=
  { copySource :=
      if s3IsV2 srcCreds then
        srcCreds.bucket ++ "/" ++ srcId ++ "/" ++ o.key ++ "?versionId=" ++ o.versionId
      else srcId ++ "/" ++ o.key ++ "?versionId=" ++ o.versionId
    bucket := if s3IsV2 dstCreds then dstCreds.bucket else dstId
    key := if s3IsV2 dstCreds then dstId ++ "/" ++ o.key else o.key }

/-- The manifest loop of `s3Utils.transferBackupFiles`: entries with
`IsLatest === false` are skipped with `continue`; every other entry
becomes one copy command. -/
def s3TransferLoop (srcId : String) (srcCreds : S3Credentials) (dstId : String)
    (dstCreds : S3Credentials) : List S3ManifestEntry → List S3CopyCommand
  | [] => []
  | o :: rest =>
    if o.isLatest = false then s3TransferLoop srcId srcCreds dstId dstCreds rest
    else s3CopyCommandOf srcId srcCreds dstId dstCreds o ::
      s3TransferLoop srcId srcCreds dstId dstCreds rest

/-- Copy commands submitted by `s3Utils.transferBackupFiles` for a manifest
holding `pub` and `priv` version lists (`allObjects = public.concat(private)`). -/
def s3TransferPlan (srcId : String) (srcCreds : S3Credentials) (dstId : String)
    (dstCreds : S3Credentials) (pub priv : List S3ManifestEntry) : List S3CopyCommand :=
  s3TransferLoop srcId srcCreds dstId dstCreds (pub ++ priv)

/-- One manifest entry under GCS semantics: a path and a generation. -/
structure GcsObject where
  name : String
  generation : Nat
deriving DecidableEq, Repr

/-- Update of `compareObject` for one manifest entry: an existing path is
replaced only by a strictly larger generation; a new path is appended. -/
def gcsUpsertMax : List (String × Nat) → String → Nat → List (String × Nat)
  | [], name, gen => [(name, gen)]
  | (k, v) :: rest, name, gen =>
    if k = name then (if v < gen then (k, gen) :: rest else (k, v) :: rest)
    else (k, v) :: gcsUpsertMax rest name gen

/-- The `compareObject` map of `gcsUtils.transferBackupFiles` after the
manifest loop, as an insertion-ordered association list. -/
def gcsCompareObject (objs : List GcsObject) : List (String × Nat) :=
  objs.foldl (fun m o => gcsUpsertMax m o.name o.generation) []

/-- One GCS copy command: a path and the generation to copy. -/
structure GcsCopyCommand where
  filePath : String
  versionId : Nat
deriving DecidableEq, Repr

/-- Copy commands submitted by `gcsUtils.transferBackupFiles`: one per key
of `compareObject`, carrying the recorded generation. -/
def gcsTransferPlan (pub priv : List GcsObject) : List GcsCopyCommand :=
  (gcsCompareObject (pub ++ priv)).map (fun kv => { filePath := kv.1, versionId := kv.2 })

/-- Largest generation the manifest records for path `p` (paths all carry
nonnegative generations, so the `0` seed is neutral). -/
def gcsMaxGen (objs : List GcsObject) (p : String) : Nat :=
  objs.foldl (fun acc o => if o.name = p then max acc o.generation else acc) 0

/-! ## Claim theorems -/

/-- Purge listing exhibiting two adjacent backups with unresolvable dates
followed by 31 dated backups (dates 1..31, date 31 most recent). -/
def adjacentUndatedBackups : List BackupObject :=
  { name := "u1", date := none, filesource := "fs" } ::
  { name := "u2", date := none, filesource := "fs" } ::
  (List.range 31).map
    (fun i => { name := "d" ++ toString (i + 1), date := some ((i : Int) + 1), filesource := "fs" })

/-- C1: the claim fails on the code. On a live run over two adjacent
undated backups followed by 31 dated ones, the `forEach`/`splice`
exclusion loop removes only the first undated entry; the second survives,
sorts as `Infinity` (most recent), and occupies a slot of the retained
window: the plan deletes the backups dated 1 and 2 — although the 30 most
recent dated backups are those dated 2..31 — and retains only 29 of the
`min(quantity, 31) = 30` dated backups the claim requires. -/
theorem purge_adjacent_undated_miscount :
    countDated adjacentUndatedBackups = 31
    ∧ min quantity (countDated adjacentUndatedBackups) = 30
    ∧ (purgePlan false quantity adjacentUndatedBackups).toDelete.map BackupObject.date
        = [some 1, some 2]
    ∧ countDated (retainedOf adjacentUndatedBackups
        (purgePlan false quantity adjacentUndatedBackups)) = 29 := by decide

/-- C2: whenever the parsed dry-run control is not `false`, the purge
engine enqueues no `deleteAll` task at all, for every installation and
every backup listing; and the control parses to the safe value when the
environment variable is unset. -/
theorem dryrun_blocks_all_deletion (env : Option String) (h : dryrunParse env = true)
    (q : Nat) (inst : String) (backups : List BackupObject) :
    purgeEnqueued (dryrunParse env) q inst backups = [] ∧ dryrunParse none = true := by
  refine ⟨?_, rfl⟩
  rw [h]
  simp [purgeEnqueued]

/-- Witness for `dryrun_blocks_all_deletion` at a concrete environment. -/
theorem dryrun_blocks_all_deletion_witness :
    purgeEnqueued (dryrunParse (some "TRUE")) 30 "installation1" adjacentUndatedBackups = []
    ∧ dryrunParse none = true :=
  dryrun_blocks_all_deletion (some "TRUE") (by decide) 30 "installation1" adjacentUndatedBackups

/-- C3: the claim fails on the code. A `deleteAll` run whose listing
returned zero versions and one delete marker, where the single deletion
fails, drives the drain callback into `failedItems.substring(0, 10)` — a
`TypeError`, since `failedItems` is an array — so the promise never
settles and no outcome with `deletedCount + failures.length == K + M` is
ever reported; the accumulated counts do satisfy the equation, and a run
with no failure reports them. -/
theorem deleteAll_failure_reports_no_outcome :
    (s3DeleteAll "backups/x" false [] [{ key := "m1", versionId := "v1" }]
        (fun _ => false) 1).deletedCount
      + (s3DeleteAll "backups/x" false [] [{ key := "m1", versionId := "v1" }]
        (fun _ => false) 1).failedItems.length = 1
    ∧ (s3DeleteAll "backups/x" false [] [{ key := "m1", versionId := "v1" }]
        (fun _ => false) 1).outcome = none
    ∧ (s3DeleteAll "backups/x" false [] [{ key := "m1", versionId := "v1" }]
        (fun _ => true) 1).outcome = some (SettledOutcome.success 1) := by decide

/-- C4: the claim fails on the code. A batch with one failing task never
produces the promised aggregate error: the failed item is recorded, but
building the aggregate message evaluates `failedItems.substring(0, 10)` on
an array, the drain callback dies on the `TypeError`, and the promise
settles with nothing — in the S3 and the GCS connector alike. -/
theorem deleteAll_aggregate_error_never_delivered :
    (s3DeleteAll "backups/y" false [{ key := "k2", versionId := "v2" }] []
        (fun _ => false) 1).failedItems = [{ key := "k2", versionId := "v2" }]
    ∧ (s3DeleteAll "backups/y" false [{ key := "k2", versionId := "v2" }] []
        (fun _ => false) 1).outcome = none
    ∧ (gcsDeleteAll "backups/y" [{ key := "k2", versionId := "v2" }]
        (fun _ => false) 1).outcome = none := by decide

/-- C6: every (provider, product) pair other than (google, storage) and
(amazon, s3) makes each of the six dispatcher operations fail with the
unsupported-provider error naming both values; no branch routes to a
default connector. -/
theorem dispatcher_rejects_unsupported_pairs (provider product : String)
    (h1 : ¬(provider = "google" ∧ product = "storage"))
    (h2 : ¬(provider = "amazon" ∧ product = "s3")) :
    listFileVersionsDispatch provider product
        = Except.error (DispatchError.unsupported provider product)
    ∧ listBackupsDispatch provider product
        = Except.error (DispatchError.unsupported provider product)
    ∧ calculateDateDispatch provider product
        = Except.error (DispatchError.unsupported provider product)
    ∧ deleteObjectVersionDispatch provider product
        = Except.error (DispatchError.unsupported provider product)
    ∧ deleteAllDispatch provider product
        = Except.error (DispatchError.unsupported provider product)
    ∧ transferBackupFilesDispatch provider product
        = Except.error (DispatchError.unsupported provider product) := by
  refine ⟨?_, ?_, ?_, ?_, ?_, ?_⟩ <;>
    simp only [listFileVersionsDispatch, listBackupsDispatch, calculateDateDispatch,
      deleteObjectVersionDispatch, deleteAllDispatch, transferBackupFilesDispatch] <;>
    split_ifs <;>
    first
      | rfl
      | exact absurd ⟨‹provider = "google"›, ‹product = "storage"›⟩ h1
      | exact absurd ⟨‹provider = "amazon"›, ‹product = "s3"›⟩ h2

/-- Witness for `dispatcher_rejects_unsupported_pairs` at a concrete
unsupported pair. -/
theorem dispatcher_rejects_unsupported_pairs_witness :
    listFileVersionsDispatch "azure" "blob"
        = Except.error (DispatchError.unsupported "azure" "blob")
    ∧ listBackupsDispatch "azure" "blob"
        = Except.error (DispatchError.unsupported "azure" "blob")
    ∧ calculateDateDispatch "azure" "blob"
        = Except.error (DispatchError.unsupported "azure" "blob")
    ∧ deleteObjectVersionDispatch "azure" "blob"
        = Except.error (DispatchError.unsupported "azure" "blob")
    ∧ deleteAllDispatch "azure" "blob"
        = Except.error (DispatchError.unsupported "azure" "blob")
    ∧ transferBackupFilesDispatch "azure" "blob"
        = Except.error (DispatchError.unsupported "azure" "blob") :=
  dispatcher_rejects_unsupported_pairs "azure" "blob" (by simp) (by simp)

/-- C9: characterization of the bucket-deletion behavior of `deleteAll`.
For the S3 connector the drain callback issues its single
`DeleteBucketCommand` exactly when the folder argument is the bucket root,
the re-list of the root reported zero remaining versions and delete
markers, and the credentials carry no shared bucket; the root is re-listed
whenever the folder argument is empty; the GCS connector deletes the
bucket exactly when the folder is empty and the re-list reported nothing
remaining. -/
theorem deleteAll_bucket_deletion_gate (folder : String) (shared : Bool)
    (versions markers files : List S3Object) (ok ok2 : Nat → Bool) (remaining r2 : Nat) :
    ((s3DeleteAll folder shared versions markers ok remaining).bucketDeleteCalls = 1
      ↔ (folder = "" ∧ remaining = 0 ∧ shared = false))
    ∧ ((s3DeleteAll folder shared versions markers ok remaining).bucketDeleteCalls = 0
      ↔ ¬(folder = "" ∧ remaining = 0 ∧ shared = false))
    ∧ ((s3DeleteAll folder shared versions markers ok remaining).relisted = true ↔ folder = "")
    ∧ ((gcsDeleteAll folder files ok2 r2).bucketDeleteCalls = 1 ↔ (folder = "" ∧ r2 = 0))
    ∧ ((gcsDeleteAll folder files ok2 r2).bucketDeleteCalls = 0 ↔ ¬(folder = "" ∧ r2 = 0)) := by
  simp only [s3DeleteAll, gcsDeleteAll]
  refine ⟨?_, ?_, ?_, ?_, ?_⟩ <;> first
    | (split_ifs <;> simp_all)
    | simp

/-- C10: the purge engine runs live (the parsed control is `false`) if and
only if the `DRYRUN` environment variable is a string whose lowercase form
is exactly `"false"`; an unset variable or any other string — the empty
string included — parses to dry-run mode. -/
theorem dryrun_live_iff_lowercase_false (env : Option String) :
    dryrunParse env = false ↔ ∃ s, env = some s ∧ jsToLowerCase s = "false" := by
  cases env with
  | none => simp [dryrunParse]
  | some s =>
    simp only [dryrunParse, Option.some.injEq]
    constructor
    · intro h
      split_ifs at h with h1 h2
      exact ⟨s, rfl, h2⟩
    · rintro ⟨t, ht, hlow⟩
      cases ht
      have hne : s ≠ "" := by
        intro h
        rw [h] at hlow
        exact absurd hlow (by decide)
      simp [hne, hlow]

/-! ### Claim C5: `calculateDate` -/

/-- Character list length of a string equals its length. -/
theorem toList_length_eq (s : String) : s.toList.length = s.length := rfl

/-- A digit character is not a space. -/
theorem isDigit_not_space {c : Char} (hc : c.isDigit = true) : jsSpace c = false := by
  rw [jsSpace]
  by_cases h : c = ' '
  · rw [h] at hc
    exact absurd hc (by decide)
  · simp [h]

/-- Left trim leaves a digit-headed list unchanged. -/
theorem jsTrimLeft_digit_head (c : Char) (cs : List Char) (hc : c.isDigit = true) :
    jsTrimLeft (c :: cs) = c :: cs := by
  rw [jsTrimLeft]
  exact List.dropWhile_cons_of_neg (by simp [isDigit_not_space hc])

/-- Trim leaves a nonempty all-digit list unchanged. -/
theorem jsTrim_digits (c : Char) (cs : List Char)
    (h2 : (c :: cs).all Char.isDigit = true) : jsTrim (c :: cs) = c :: cs := by
  have hc : c.isDigit = true := List.all_eq_true.mp h2 c (by simp)
  have hrne : (c :: cs).reverse ≠ [] := by simp
  obtain ⟨d, ds, hd⟩ := List.exists_cons_of_ne_nil hrne
  have hdd : d.isDigit = true := by
    have hmem : d ∈ c :: cs := by
      have hmr : d ∈ (c :: cs).reverse := by rw [hd]; simp
      exact List.mem_reverse.mp hmr
    exact List.all_eq_true.mp h2 d hmem
  rw [jsTrim, jsTrimLeft_digit_head c cs hc, hd,
    List.dropWhile_cons_of_neg (by simp [isDigit_not_space hdd]), ← hd, List.reverse_reverse]

/-- Sign extraction leaves a digit-headed list unchanged and reads no
sign. -/
theorem jsSignSplit_digit_head (c : Char) (cs : List Char) (hc : c.isDigit = true) :
    jsSignSplit (c :: cs) = (false, c :: cs) := by
  have hmi : ¬c = '-' := fun he => by rw [he] at hc; exact absurd hc (by decide)
  have hpl : ¬c = '+' := fun he => by rw [he] at hc; exact absurd hc (by decide)
  rw [jsSignSplit]
  rw [if_neg]
  simp only [List.head?_cons, Option.some.injEq]
  exact fun h => h.elim hmi hpl

/-- A digit-only nonempty string parses under `parseInt` to its decimal
value. -/
theorem jsParseIntPrefix_digits (cs : List Char) (h1 : cs ≠ [])
    (h2 : cs.all Char.isDigit = true) :
    jsParseIntPrefix cs.asString = some ((decDigitsVal cs : Int)) := by
  obtain ⟨c, cs2, rfl⟩ := List.exists_cons_of_ne_nil h1
  have hc : c.isDigit = true := List.all_eq_true.mp h2 c (by simp)
  have htw : (c :: cs2).takeWhile Char.isDigit = c :: cs2 :=
    List.takeWhile_eq_self_iff.mpr (fun x hx => List.all_eq_true.mp h2 x hx)
  simp only [jsParseIntPrefix, List.toList_asString, jsTrimLeft_digit_head c cs2 hc,
    jsSignSplit_digit_head c cs2 hc, htw, List.isEmpty_cons, Bool.false_eq_true, if_false]

/-- A digit-only nonempty string coerces under `ToNumber` to its decimal
value. -/
theorem jsToNumber_digits (cs : List Char) (h1 : cs ≠ [])
    (h2 : cs.all Char.isDigit = true) :
    jsToNumber cs.asString = some ((decDigitsVal cs : Int)) := by
  obtain ⟨c, cs2, rfl⟩ := List.exists_cons_of_ne_nil h1
  have hc : c.isDigit = true := List.all_eq_true.mp h2 c (by simp)
  have htw : (c :: cs2).takeWhile Char.isDigit = c :: cs2 :=
    List.takeWhile_eq_self_iff.mpr (fun x hx => List.all_eq_true.mp h2 x hx)
  simp only [jsToNumber, List.toList_asString, jsTrim_digits c cs2 h2,
    jsSignSplit_digit_head c cs2 hc, htw, List.isEmpty_cons, Bool.false_eq_true, if_false,
    List.drop_length, List.isEmpty_nil, if_true, Option.map_some]
  simp

/-- Every element of the window `[a, a+b)` of a list satisfying `p` on its
prefix of length `n ≥ a + b` satisfies `p`. -/
theorem all_segment (l : List Char) (p : Char → Bool) (a b n : Nat) (h : a + b ≤ n)
    (hall : (l.take n).all p = true) : ((l.drop a).take b).all p = true := by
  apply List.all_eq_true.mpr
  intro x hx
  apply List.all_eq_true.mp hall
  have h1 : (l.drop a).take b = ((l.take n).drop a).take b := by
    rw [List.drop_take, List.take_take]
    congr 1
    omega
  rw [h1] at hx
  exact List.mem_of_mem_drop (List.mem_of_mem_take hx)

/-- A window of positive width starting inside the list is nonempty. -/
theorem segment_ne_nil (l : List Char) (a b : Nat) (hb : 0 < b) (ha : a < l.length) :
    (l.drop a).take b ≠ [] := by
  apply List.length_pos.mp
  rw [List.length_take, List.length_drop]
  omega

/-- C5 counterexample: the claim as stated is false. The 14-character name
encoding month 13 does not fail with a `DateParseError`: the `Date`
constructor rolls month 13 of 2022 over to January 2023, the `isNaN` guard
accepts the result, and `calculateDate` resolves with that date. -/
theorem calculateDate_month13_resolves :
    s3CalculateDate "13012022132649" = Except.ok (daysFromCivil 2023 1 1) := rfl

/-- C5 amended: `calculateDate` dispatches on length exactly as claimed
and any other length fails with the length error; the two documented
examples parse to 2022-03-24 and 2022-05-02; but a digit-endowed input of
an accepted length always resolves, with out-of-range month or day fields
rolled over by calendar arithmetic (ECMAScript `MakeDay`) instead of
rejected. -/
theorem calculateDate_length_dispatch_and_rollover :
    (∀ s : String, s.length ≠ 14 → s.length ≠ 35 →
      s3CalculateDate s = Except.error (DateParseError.badLength s))
    ∧ (∀ s : String, s.length = 14 → (s.toList.take 8).all Char.isDigit = true →
      s3CalculateDate s = Except.ok (jsDateDay (decDigitsVal ((s.toList.drop 4).take 4))
        ((decDigitsVal (s.toList.take 2) : Int) - 1) (decDigitsVal ((s.toList.drop 2).take 2))))
    ∧ (∀ s : String, s.length = 35 → (s.toList.take 8).all Char.isDigit = true →
      s3CalculateDate s = Except.ok (jsDateDay (decDigitsVal (s.toList.take 4))
        ((decDigitsVal ((s.toList.drop 4).take 2) : Int) - 1)
        (decDigitsVal ((s.toList.drop 6).take 2))))
    ∧ s3CalculateDate "03242022132649" = Except.ok (daysFromCivil 2022 3 24)
    ∧ s3CalculateDate "20220502230023-47180780406793064490"
        = Except.ok (daysFromCivil 2022 5 2) := by
  refine ⟨?_, ?_, ?_, rfl, rfl⟩
  · intro s h1 h2
    simp [s3CalculateDate, h1, h2]
  · intro s hlen hdig
    have hlenl : s.toList.length = 14 := by rw [toList_length_eq, hlen]
    have hd1 : (s.toList.take 2).all Char.isDigit = true := by
      have h := all_segment s.toList Char.isDigit 0 2 8 (by omega) hdig
      rwa [List.drop_zero] at h
    have hd2 := all_segment s.toList Char.isDigit 2 2 8 (by omega) hdig
    have hd3 := all_segment s.toList Char.isDigit 4 4 8 (by omega) hdig
    have hne1 : s.toList.take 2 ≠ [] := by
      apply List.length_pos.mp
      rw [List.length_take]
      omega
    have hne2 : (s.toList.drop 2).take 2 ≠ [] := segment_ne_nil _ 2 2 (by omega) (by omega)
    have hne3 : (s.toList.drop 4).take 4 ≠ [] := segment_ne_nil _ 4 4 (by omega) (by omega)
    have e1 : jsSlice s 0 2 = (s.toList.take 2).asString := by
      simp [jsSlice]
    have e2 : jsSlice s 2 4 = ((s.toList.drop 2).take 2).asString := rfl
    have e3 : jsSlice s 4 8 = ((s.toList.drop 4).take 4).asString := rfl
    rw [s3CalculateDate, if_pos hlen, e1, e2, e3,
      jsParseIntPrefix_digits _ hne1 hd1, jsToNumber_digits _ hne2 hd2,
      jsToNumber_digits _ hne3 hd3]
  · intro s hlen hdig
    have hlenl : s.toList.length = 35 := by rw [toList_length_eq, hlen]
    have hd1 : (s.toList.take 4).all Char.isDigit = true := by
      have h := all_segment s.toList Char.isDigit 0 4 8 (by omega) hdig
      rwa [List.drop_zero] at h
    have hd2 := all_segment s.toList Char.isDigit 4 2 8 (by omega) hdig
    have hd3 := all_segment s.toList Char.isDigit 6 2 8 (by omega) hdig
    have hne1 : s.toList.take 4 ≠ [] := by
      apply List.length_pos.mp
      rw [List.length_take]
      omega
    have hne2 : (s.toList.drop 4).take 2 ≠ [] := segment_ne_nil _ 4 2 (by omega) (by omega)
    have hne3 : (s.toList.drop 6).take 2 ≠ [] := segment_ne_nil _ 6 2 (by omega) (by omega)
    have e1 : jsSlice s 0 4 = (s.toList.take 4).asString := by
      simp [jsSlice]
    have e2 : jsSlice s 4 6 = ((s.toList.drop 4).take 2).asString := rfl
    have e3 : jsSlice s 6 8 = ((s.toList.drop 6).take 2).asString := rfl
    rw [s3CalculateDate, if_neg (by omega), if_pos hlen, e1, e2, e3,
      jsParseIntPrefix_digits _ hne2 hd2, jsToNumber_digits _ hne3 hd3,
      jsToNumber_digits _ hne1 hd1]

/-- Witness for `calculateDate_length_dispatch_and_rollover` at concrete
inputs: a 12-character name fails with the length error, and a
14-character name with 1-based month 13 and day 31 resolves with
2023-01-31. -/
theorem calculateDate_length_dispatch_and_rollover_witness :
    s3CalculateDate "130120221326" = Except.error (DateParseError.badLength "130120221326")
    ∧ s3CalculateDate "13312022132649" = Except.ok (daysFromCivil 2023 1 31) := by
  constructor
  · exact (calculateDate_length_dispatch_and_rollover).1 "130120221326" (by decide) (by decide)
  · exact ((calculateDate_length_dispatch_and_rollover).2.1 "13312022132649"
      (by decide) (by decide)).trans (congrArg Except.ok (by decide))

/-! ### Claim C7: pagination -/

/-- C7 counterexample: the claim as stated is false. On a provider whose
first page is truncated but lists only a delete marker (no versions), the
cursor line `response.Versions.slice(-1)[0].Key` throws, the loop rejects,
and the accumulated result never equals the union of the pages. -/
theorem listing_truncated_marker_page_crashes :
    s3ListFileVersions
        [{ versions := [], deleteMarkers := [{ key := "dm", versionId := "v" }],
           isTruncated := true },
         { versions := [], deleteMarkers := [], isTruncated := false }]
      = Except.error ListVersionsError.cursorCrash := rfl

/-- Generalized drain lemma for the listing loop: over any response
sequence whose non-final pages are truncated and carry at least one
version and whose final page is not truncated, the loop succeeds,
accumulates every page's versions and delete markers in order, and sends
exactly the last version key of each non-final page as the continuation
cursor. -/
theorem s3ListLoop_drains (pages : List S3Page) :
    ∀ (accV accM : List S3Object) (cursors : List String),
    (∀ p ∈ pages.dropLast, p.isTruncated = true ∧ p.versions ≠ []) →
    pages.getLast?.map S3Page.isTruncated = some false →
    s3ListLoop pages accV accM cursors = Except.ok
      { versions := accV ++ (pages.map S3Page.versions).flatten,
        deleteMarkers := accM ++ (pages.map S3Page.deleteMarkers).flatten,
        cursors := cursors ++ pages.dropLast.map lastVersionKey } := by
  induction pages with
  | nil =>
    intro accV accM cursors hmid hlast
    simp at hlast
  | cons p rest ih =>
    intro accV accM cursors hmid hlast
    cases rest with
    | nil =>
      have hp : p.isTruncated = false := by simpa using hlast
      simp [s3ListLoop, hp]
    | cons q rest2 =>
      have hdl : (p :: q :: rest2).dropLast = p :: (q :: rest2).dropLast := rfl
      have hp := hmid p (by rw [hdl]; exact List.mem_cons_self p _)
      obtain ⟨hptr, hpv⟩ := hp
      obtain ⟨v, hv⟩ : ∃ v, p.versions.getLast? = some v := by
        cases hl : p.versions.getLast? with
        | none => exact absurd (List.getLast?_eq_none_iff.mp hl) hpv
        | some v => exact ⟨v, rfl⟩
      have hmid2 : ∀ x ∈ (q :: rest2).dropLast, x.isTruncated = true ∧ x.versions ≠ [] := by
        intro x hx
        exact hmid x (by rw [hdl]; exact List.mem_cons_of_mem p hx)
      have hlast2 : (q :: rest2).getLast?.map S3Page.isTruncated = some false := by
        rwa [List.getLast?_cons_cons] at hlast
      have hstep : s3ListLoop (p :: q :: rest2) accV accM cursors
          = s3ListLoop (q :: rest2) (accV ++ p.versions) (accM ++ p.deleteMarkers)
            (cursors ++ [v.key]) := by
        conv_lhs => rw [s3ListLoop]
        simp only [hptr, if_true, hv]
      rw [hstep, ih (accV ++ p.versions) (accM ++ p.deleteMarkers) (cursors ++ [v.key]) hmid2 hlast2]
      simp [hdl, lastVersionKey, hv, List.append_assoc]

/-- C7 amended: provided every non-final page of the provider's response
sequence is truncated and contains at least one object version (the
continuation cursor the code carries forward is the key of the last
element of the page's `Versions` array), `listFileVersions` drains every
page: it succeeds and the accumulated result is exactly the concatenation
of all pages' versions and of all pages' delete markers, with one cursor
per non-final page. A truncated page without versions instead fails (see
the counterexample), so the draining guarantee holds on exactly this
domain. -/
theorem s3_pagination_accumulates_union (pages : List S3Page)
    (hmid : ∀ p ∈ pages.dropLast, p.isTruncated = true ∧ p.versions ≠ [])
    (hlast : pages.getLast?.map S3Page.isTruncated = some false) :
    s3ListFileVersions pages = Except.ok
      { versions := (pages.map S3Page.versions).flatten,
        deleteMarkers := (pages.map S3Page.deleteMarkers).flatten,
        cursors := pages.dropLast.map lastVersionKey } := by
  have h := s3ListLoop_drains pages [] [] [] hmid hlast
  simpa [s3ListFileVersions] using h

/-- Witness for `s3_pagination_accumulates_union` on a concrete two-page
listing. -/
theorem s3_pagination_accumulates_union_witness :
    s3ListFileVersions
        [{ versions := [{ key := "a", versionId := "1" }, { key := "b", versionId := "2" }],
           deleteMarkers := [{ key := "m", versionId := "3" }], isTruncated := true },
         { versions := [{ key := "c", versionId := "4" }], deleteMarkers := [],
           isTruncated := false }]
      = Except.ok
        { versions := [{ key := "a", versionId := "1" }, { key := "b", versionId := "2" },
            { key := "c", versionId := "4" }],
          deleteMarkers := [{ key := "m", versionId := "3" }],
          cursors := ["b"] } := by
  have h := s3_pagination_accumulates_union
    [{ versions := [{ key := "a", versionId := "1" }, { key := "b", versionId := "2" }],
       deleteMarkers := [{ key := "m", versionId := "3" }], isTruncated := true },
     { versions := [{ key := "c", versionId := "4" }], deleteMarkers := [],
       isTruncated := false }] (by decide) (by decide)
  simpa using h

/-! ### Claim C8: transfer plans copy only current entries -/

/-- The S3 manifest loop is a filter of the latest entries followed by the
copy-command construction. -/
theorem s3TransferLoop_eq_filter_map (srcId : String) (srcCreds : S3Credentials)
    (dstId : String) (dstCreds : S3Credentials) (l : List S3ManifestEntry) :
    s3TransferLoop srcId srcCreds dstId dstCreds l
      = (l.filter (fun o => o.isLatest)).map (s3CopyCommandOf srcId srcCreds dstId dstCreds) := by
  induction l with
  | nil => rfl
  | cons o rest ih =>
    cases ho : o.isLatest <;> simp [s3TransferLoop, List.filter_cons, ho, ih]

/-- Lookup after one `compareObject` update: the updated path maps to the
maximum of its previous value and the new generation; other paths are
untouched. -/
theorem gcsUpsertMax_lookup (m : List (String × Nat)) (name : String) (gen : Nat)
    (p : String) :
    (gcsUpsertMax m name gen).lookup p =
      if p = name then some (max ((m.lookup p).getD 0) gen) else m.lookup p := by
  induction m with
  | nil =>
    by_cases hp : p = name
    · subst hp
      simp [gcsUpsertMax, List.lookup_cons]
    · have hbeq : (p == name) = false := beq_eq_false_iff_ne.mpr hp
      simp [gcsUpsertMax, List.lookup_cons, hp, hbeq]
  | cons kv rest ih =>
    obtain ⟨k, v⟩ := kv
    by_cases hk : k = name
    · subst hk
      by_cases hp : p = k
      · subst hp
        simp only [gcsUpsertMax, if_pos rfl]
        split_ifs with hv <;> simp [List.lookup_cons] <;> omega
      · simp only [gcsUpsertMax, if_pos rfl]
        have hbeq : (p == k) = false := beq_eq_false_iff_ne.mpr hp
        split_ifs with hv <;> simp [List.lookup_cons, hbeq, hp]
    · by_cases hp : p = k
      · subst hp
        have hpn : ¬p = name := fun h => hk (h ▸ rfl)
        simp [gcsUpsertMax, hk, List.lookup_cons, hpn]
      · have hbeq : (p == k) = false := beq_eq_false_iff_ne.mpr hp
        simp [gcsUpsertMax, hk, List.lookup_cons, hbeq, ih]

/-- Keys after one `compareObject` update: unchanged when the path was
present, extended by the path otherwise. -/
theorem gcsUpsertMax_keys (m : List (String × Nat)) (name : String) (gen : Nat) :
    (gcsUpsertMax m name gen).map Prod.fst =
      if name ∈ m.map Prod.fst then m.map Prod.fst else m.map Prod.fst ++ [name] := by
  induction m with
  | nil => simp [gcsUpsertMax]
  | cons kv rest ih =>
    obtain ⟨k, v⟩ := kv
    by_cases hk : k = name
    · subst hk
      have hmem : k ∈ List.map Prod.fst ((k, v) :: rest) := by simp
      simp only [gcsUpsertMax, if_pos rfl, if_pos hmem]
      split_ifs with hv <;> simp
    · simp only [gcsUpsertMax, if_neg hk, List.map_cons, List.mem_cons, ih]
      have hnk : ¬name = k := fun h => hk h.symm
      by_cases hmem : name ∈ rest.map Prod.fst <;> simp [hnk, hmem]

/-- One `compareObject` update preserves distinctness of the stored
paths. -/
theorem gcsUpsertMax_nodup (m : List (String × Nat)) (name : String) (gen : Nat)
    (h : (m.map Prod.fst).Nodup) : ((gcsUpsertMax m name gen).map Prod.fst).Nodup := by
  rw [gcsUpsertMax_keys]
  split_ifs with hmem
  · exact h
  · simp [List.nodup_append, h, hmem]

/-- Folding the per-path maximum from any seed. -/
theorem gcsMaxGen_foldl (p : String) : ∀ (l : List GcsObject) (a : Nat),
    l.foldl (fun acc o => if o.name = p then max acc o.generation else acc) a
      = max a (gcsMaxGen l p) := by
  intro l
  induction l with
  | nil => intro a; simp [gcsMaxGen]
  | cons o rest ih =>
    intro a
    simp only [gcsMaxGen, List.foldl_cons]
    rw [ih, ih]
    by_cases ho : o.name = p
    · simp only [if_pos ho]
      omega
    · simp only [if_neg ho]
      omega

/-- A path absent from the manifest has maximum generation `0`. -/
theorem gcsMaxGen_not_mem (l : List GcsObject) (p : String)
    (h : ¬p ∈ l.map GcsObject.name) : gcsMaxGen l p = 0 := by
  induction l with
  | nil => rfl
  | cons o rest ih =>
    simp only [List.map_cons, List.mem_cons] at h
    push_neg at h
    have ho : ¬o.name = p := fun he => h.1 he.symm
    simp only [gcsMaxGen, List.foldl_cons, if_neg ho]
    exact ih h.2

/-- Lookup in the folded `compareObject` map from any seed map. -/
theorem gcsCompareObject_fold_lookup : ∀ (l : List GcsObject) (m : List (String × Nat))
    (p : String),
    (l.foldl (fun m o => gcsUpsertMax m o.name o.generation) m).lookup p =
      if p ∈ l.map GcsObject.name then some (max ((m.lookup p).getD 0) (gcsMaxGen l p))
      else m.lookup p := by
  intro l
  induction l with
  | nil => intro m p; simp
  | cons o rest ih =>
    intro m p
    have hg : gcsMaxGen (o :: rest) p
        = max (if o.name = p then max 0 o.generation else 0) (gcsMaxGen rest p) := by
      simp only [gcsMaxGen, List.foldl_cons]
      exact gcsMaxGen_foldl p rest _
    simp only [List.foldl_cons, List.map_cons, List.mem_cons]
    rw [ih, gcsUpsertMax_lookup, hg]
    by_cases hp : p = o.name
    · simp only [hp, eq_self_iff_true, if_true, true_or, ite_true]
      by_cases hrest : o.name ∈ rest.map GcsObject.name
      · simp only [if_pos hrest, Option.getD_some]
        congr 1
        omega
      · simp only [if_neg hrest, gcsMaxGen_not_mem rest _ hrest, Option.getD_some]
        congr 1
        omega
    · have ho : ¬o.name = p := fun he => hp he.symm
      simp only [if_neg hp, if_neg ho]
      by_cases hrest : p ∈ rest.map GcsObject.name
      · simp only [if_pos hrest, if_pos (Or.inr hrest)]
        congr 1
        omega
      · have hor : ¬(p = o.name ∨ p ∈ rest.map GcsObject.name) := by
          intro hor
          exact hor.elim hp hrest
        simp only [if_neg hrest, if_neg hor]

/-- Lookup characterization of the complete `compareObject` map: exactly
the manifest's paths are present, each bound to its largest generation. -/
theorem gcsCompareObject_lookup (objs : List GcsObject) (p : String) :
    (gcsCompareObject objs).lookup p =
      if p ∈ objs.map GcsObject.name then some (gcsMaxGen objs p) else none := by
  have h := gcsCompareObject_fold_lookup objs [] p
  simpa [gcsCompareObject] using h

/-- The `compareObject` map never stores a path twice. -/
theorem gcsCompareObject_keys_nodup (objs : List GcsObject) :
    ((gcsCompareObject objs).map Prod.fst).Nodup := by
  suffices h : ∀ (l : List GcsObject) (m : List (String × Nat)), (m.map Prod.fst).Nodup →
      ((l.foldl (fun m o => gcsUpsertMax m o.name o.generation) m).map Prod.fst).Nodup by
    exact h objs [] (by simp)
  intro l
  induction l with
  | nil => intro m hm; simpa using hm
  | cons o rest ih =>
    intro m hm
    simp only [List.foldl_cons]
    exact ih _ (gcsUpsertMax_nodup m _ _ hm)

/-- C8: both transfer engines submit copies only for entries current at
backup time. Under S3 semantics a command is submitted exactly for the
manifest entries marked latest (entries with `IsLatest === false` are
discarded); under GCS semantics the submitted commands carry pairwise
distinct paths, and a path is submitted exactly when the manifest mentions
it, carrying the highest generation recorded for it. -/
theorem transfer_copies_only_latest :
    (∀ (srcId : String) (srcCreds : S3Credentials) (dstId : String)
      (dstCreds : S3Credentials) (pub priv : List S3ManifestEntry) (c : S3CopyCommand),
      c ∈ s3TransferPlan srcId srcCreds dstId dstCreds pub priv ↔
        ∃ o ∈ pub ++ priv, o.isLatest = true
          ∧ c = s3CopyCommandOf srcId srcCreds dstId dstCreds o)
    ∧ (∀ (pub priv : List GcsObject),
      ((gcsTransferPlan pub priv).map GcsCopyCommand.filePath).Nodup
      ∧ (∀ p : String,
        ((gcsTransferPlan pub priv).map (fun c => (c.filePath, c.versionId))).lookup p
          = if p ∈ (pub ++ priv).map GcsObject.name then some (gcsMaxGen (pub ++ priv) p)
            else none)) := by
  constructor
  · intro srcId srcCreds dstId dstCreds pub priv c
    rw [s3TransferPlan, s3TransferLoop_eq_filter_map]
    simp only [List.mem_map, List.mem_filter]
    constructor
    · rintro ⟨o, ⟨ho1, ho2⟩, rfl⟩
      exact ⟨o, ho1, ho2, rfl⟩
    · rintro ⟨o, ho1, ho2, rfl⟩
      exact ⟨o, ⟨ho1, ho2⟩, rfl⟩
  · intro pub priv
    constructor
    · have hmap : (gcsTransferPlan pub priv).map GcsCopyCommand.filePath
          = (gcsCompareObject (pub ++ priv)).map Prod.fst := by
        simp [gcsTransferPlan, List.map_map, Function.comp]
      rw [hmap]
      exact gcsCompareObject_keys_nodup _
    · intro p
      have hmap : (gcsTransferPlan pub priv).map (fun c => (c.filePath, c.versionId))
          = gcsCompareObject (pub ++ priv) := by
        rw [gcsTransferPlan, List.map_map]
        exact List.map_id'' (fun kv => rfl) _
      rw [hmap]
      exact gcsCompareObject_lookup _ p

end BackupPurge
